import Mathlib

/-!
Verification of the claudia backend core (session tracker, settings
aggregator, file monitor, event broadcast) via a shallow embedding of
`src/backend/app` in Lean.  JSON values are modelled by an inductive type,
Python dicts by association lists with insertion-order semantics, and
timestamps by integers (minutes since an arbitrary epoch).
-/

namespace Claudia

/-- JSON-like values, as produced by Python's `json.loads` and stored in the
settings layers and metadata maps.  Objects are association lists in
insertion order, matching Python `dict` semantics. -/
inductive Json where
  | null : Json
  | bool (b : Bool) : Json
  | num (n : Int) : Json
  | str (s : String) : Json
  | arr (xs : List Json) : Json
  | obj (fields : List (String × Json)) : Json

/-- First value bound to key `k`, like Python `d[k]` / `k in d` on a dict. -/
def getKey (l : List (String × Json)) (k : String) : Option Json :=
  match l with
  | [] => none
  | (k', v) :: tl => if k' = k then some v else getKey tl k

/-- Python dict assignment `d[k] = v`: replaces the value in place if the key
exists (keeping its position), appends otherwise. -/
def dictSet (l : List (String × Json)) (k : String) (v : Json) :
    List (String × Json) :=
  match l with
  | [] => [(k, v)]
  | (k', v') :: tl => if k' = k then (k, v) :: tl else (k', v') :: dictSet tl k v

mutual

/-- `SettingsAggregator._deep_merge`'s per-key rule: when both the current and
the incoming value are dicts the merge recurses, otherwise the incoming value
replaces the current one. -/
def deepMerge (b v : Json) : Json :=
  match b, v with
  | Json.obj bf, Json.obj vf => Json.obj (mergeList bf vf)
  | _, v' => v'
termination_by (sizeOf v, 0)

/-- `SettingsAggregator._deep_merge` on dict contents: fold the overlay's
entries into the base, in overlay order. -/
def mergeList (base : List (String × Json)) (overlay : List (String × Json)) :
    List (String × Json) :=
  match overlay with
  | [] => base
  | (k, v) :: rest => mergeList (mergeKey base k v) rest
termination_by (sizeOf overlay, 0)

/-- One step of `_deep_merge`: `base[key] = value`, except that two dicts are
merged recursively.  New keys are appended, existing keys keep their
position, as in a Python dict. -/
def mergeKey (base : List (String × Json)) (k : String) (v : Json) :
    List (String × Json) :=
  match base with
  | [] => [(k, v)]
  | (k', v') :: tl =>
    if k' = k then (k', deepMerge v' v) :: tl else (k', v') :: mergeKey tl k v
termination_by (sizeOf v, sizeOf base + 1)

end

mutual

/-- Well-formedness of a JSON value as a Python object: every object that
`json.loads` produces, or that a Python dict holds, has pairwise-distinct
keys at every nesting level. -/
def wfJson : Json → Prop
  | Json.obj fs => (fs.map Prod.fst).Nodup ∧ wfFields fs
  | _ => True
termination_by j => (sizeOf j, 0)

/-- All values of an association list are well-formed. -/
def wfFields : List (String × Json) → Prop
  | [] => True
  | (_, v) :: tl => wfJson v ∧ wfFields tl
termination_by l => (sizeOf l, 1)

end

/-! ## Settings aggregator (`services/settings_aggregator.py`) -/

/-- `constants.SETTINGS_PRECEDENCE`: merge order of the file-derived layers,
lowest precedence first. -/
def SETTINGS_PRECEDENCE : List String := ["managed", "user", "project", "local"]

/-- The result of `SettingsAggregator.get_settings_hierarchy`: the four raw
layers, each the parsed content of one settings file (a missing or unreadable
file yields the empty layer).  File reading itself is I/O and is modelled by
passing the already-read layers in.  `localLayer` is the `'local'` layer
(`local` is a Lean keyword). -/
structure SettingsHierarchy where
  managed : List (String × Json)
  user : List (String × Json)
  project : List (String × Json)
  localLayer : List (String × Json)

/-- `hierarchy[level]` for the levels named in `SETTINGS_PRECEDENCE`. -/
def layerOf (h : SettingsHierarchy) : String → List (String × Json)
  | "managed" => h.managed
  | "user" => h.user
  | "project" => h.project
  | "local" => h.localLayer
  | _ => []

/-- `SettingsAggregator.compute_effective_settings`: start from the empty
dict and deep-merge each layer in `SETTINGS_PRECEDENCE` order. -/
def compute_effective_settings (h : SettingsHierarchy) : List (String × Json) :=
  SETTINGS_PRECEDENCE.foldl (fun eff level => mergeList eff (layerOf h level)) []

/-- `SettingsAggregator.merge_runtime_overrides`: deep-merge the runtime layer
(captured from hooks) on top of a copy of the file-based configuration. -/
def merge_runtime_overrides (file_based runtime : List (String × Json)) :
    List (String × Json) :=
  mergeList file_based runtime

/-! ## Session tracker (`services/session_tracker.py`)

Timestamps are integers, in minutes (the unit of the timeout constant).
Each operation takes the current time `now` as a parameter, standing for
`datetime.now(timezone.utc)` at the call; the database unit of work is the
explicit `TrackerState`. -/

/-- `constants.SESSION_TIMEOUT_MINUTES`. -/
def SESSION_TIMEOUT_MINUTES : Int := 60

/-- One `SessionModel` instance as `SessionTracker` sees it.  The first seven
fields are the mapped columns of `db/models.py` that the tracker touches.
`claudia_metadata`, `source` and `reason` are *not* columns of
`SessionModel`: they are plain Python instance attributes, absent (`none`)
unless some code assigned them to this very instance inside the current unit
of work.  Assigning an absent attribute succeeds (and is simply never
persisted); *reading* an absent one raises `AttributeError`.  A row freshly
loaded from the database always has all three absent. -/
structure SessionRec where
  session_id : String
  project_path : String
  project_name : String
  started_at : Int
  ended_at : Option Int
  is_active : Bool
  session_metadata : List (String × Json)
  claudia_metadata : Option (List (String × Json))
  source : Option (Option String)
  reason : Option (Option String)

/-- One row of `tool_executions` (`ToolExecutionModel`), keyed here by the
owning session's external id. -/
structure ToolExecutionRec where
  session_key : String
  tool_name : String
  parameters : Option Json
  result : Option Json
  error : Option String
  executed_at : Int
  duration_ms : Option Int

/-- One row of `user_prompts` (`UserPromptModel`).  The embedding is produced
by the external embedding service and stored opaquely. -/
structure UserPromptRec where
  session_key : String
  prompt_text : String
  prompt_metadata : List (String × Json)
  embedding : Option (List Int)
  created_at : Int

/-- One row of `assistant_messages` (`AssistantMessageModel`). -/
structure AssistantMessageRec where
  session_key : String
  message_text : String
  conversation_turn : Int
  message_metadata : List (String × Json)
  embedding : Option (List Int)
  created_at : Int

/-- The portion of the database a `SessionTracker` call can touch. -/
structure TrackerState where
  sessions : List SessionRec
  tools : List ToolExecutionRec
  prompts : List UserPromptRec
  messages : List AssistantMessageRec

/-- `SessionNotFoundException` (`app/exceptions.py`): the distinct NotFound
condition raised for an unknown session id. -/
inductive TrackerErr where
  | sessionNotFound (session_id : String)

/-- Python runtime errors the tracker triggers through the ORM model:
reading an instance attribute that is absent (`AttributeError`), and passing
a keyword argument that is not a mapped column to the declarative
`SessionModel` constructor (`TypeError`). -/
inductive PyErr where
  | attributeError (attr : String)
  | typeError (kwarg : String)

/-- `select(SessionModel).where(session_id == sid)` + `scalar_one_or_none()`:
the row with the given external session id, if any. -/
def findSession (sessions : List SessionRec) (sid : String) : Option SessionRec :=
  sessions.find? (fun r => r.session_id == sid)

/-- Write back an updated row: replace the first row carrying this session id
(the id column is unique, so at most one row matches). -/
def updateFirst (sessions : List SessionRec) (sid : String) (r' : SessionRec) :
    List SessionRec :=
  match sessions with
  | [] => []
  | r :: tl => if r.session_id == sid then r' :: tl else r :: updateFirst tl sid r'

/-- Python `x or default` for optional strings: `None` and `""` are falsy. -/
def pyOrStr (x : Option String) (default : String) : String :=
  match x with
  | some s => if s = "" then default else s
  | none => default

/-- `session_metadata = runtime_config or {}` followed by
`if transcript_path: session_metadata['transcript_path'] = transcript_path`
(`""` is falsy, so an empty transcript path is not stored). -/
def newSessionMetadata (runtime_config : Option (List (String × Json)))
    (transcript_path : Option String) : List (String × Json) :=
  let meta := runtime_config.getD []
  match transcript_path with
  | some t => if t = "" then meta else dictSet meta "transcript_path" (Json.str t)
  | none => meta

/-- `SessionTracker.start_session`.  On the reactivation path the mutations
of lines 56-67 (project fields, start time, active flag, cleared end time,
`source` attribute assignment, replaced metadata) are applied to the unit of
work first; line 70 then *reads* `existing.claudia_metadata`, which is not a
mapped column, so on any row whose attribute is absent an `AttributeError`
propagates with those mutations still pending (the lines 70-78 continuation
is reachable only if outside code assigned the attribute to this instance).
On the creation path line 89 calls the declarative `SessionModel` constructor
with `claudia_metadata=...`/`source=...`, which are not mapped columns: a
`TypeError` is raised before anything is added to the unit of work.  The
first component of the result is the unit of work after the call — the
exception propagates to the caller, who owns commit/rollback. -/
def start_session (st : TrackerState) (now : Int)
    (session_id project_path project_name : String)
    (transcript_path : Option String) (runtime_config : Option (List (String × Json)))
    (source : Option String) : TrackerState × Except PyErr SessionRec :=
  match findSession st.sessions session_id with
  | some existing =>
    let meta := newSessionMetadata runtime_config transcript_path
    let partialRec : SessionRec :=
      { existing with
        project_path := project_path
        project_name := project_name
        started_at := now
        is_active := true
        ended_at := none
        source := some source
        session_metadata := meta }
    match existing.claudia_metadata with
    | none =>
      ({ st with sessions := updateFirst st.sessions session_id partialRec },
       Except.error (PyErr.attributeError "claudia_metadata"))
    | some cm0 =>
      -- `if not existing.claudia_metadata:` resets an empty dict to `{}` (a
      -- no-op on the content), then `first_seen_at` is added only if absent,
      -- stamped with the just-updated start time
      let cm :=
        match getKey cm0 "first_seen_at" with
        | none => dictSet cm0 "first_seen_at" (Json.str (toString now))
        | some _ => cm0
      let r' : SessionRec := { partialRec with claudia_metadata := some cm }
      ({ st with sessions := updateFirst st.sessions session_id r' },
       Except.ok r')
  | none =>
    -- `claudia_metadata` is the first keyword argument of the constructor
    -- call that is not a mapped column
    (st, Except.error (PyErr.typeError "claudia_metadata"))

/-- `SessionTracker.end_session`: raises `SessionNotFoundException` for an
unknown id (before touching anything), otherwise deactivates the row, stamps
the end time, assigns the `reason` instance attribute (a plain Python
attribute assignment, which succeeds although `reason` is not a mapped
column), and overwrites only the optional fields that were supplied. -/
def end_session (st : TrackerState) (now : Int) (session_id : String)
    (reason : Option String) (project_path project_name : Option String)
    (session_metadata : Option (List (String × Json))) :
    Except TrackerErr (TrackerState × SessionRec) :=
  match findSession st.sessions session_id with
  | none => Except.error (TrackerErr.sessionNotFound session_id)
  | some s =>
    let r' : SessionRec :=
      { s with
        is_active := false
        ended_at := some now
        reason := some reason
        project_path := project_path.getD s.project_path
        project_name := project_name.getD s.project_name
        session_metadata := session_metadata.getD s.session_metadata }
    Except.ok ({ st with sessions := updateFirst st.sessions session_id r' }, r')

/-- `SessionTracker.record_tool_execution`: raises `SessionNotFoundException`
for an unknown id, otherwise appends a child row (`tool_name or "unknown"`,
server-assigned execution timestamp). -/
def record_tool_execution (st : TrackerState) (now : Int) (session_id : String)
    (tool_name : Option String) (parameters : Option Json) (result : Option Json)
    (error : Option String) (duration_ms : Option Int) :
    Except TrackerErr (TrackerState × ToolExecutionRec) :=
  match findSession st.sessions session_id with
  | none => Except.error (TrackerErr.sessionNotFound session_id)
  | some s =>
    let te : ToolExecutionRec :=
      { session_key := s.session_id
        tool_name := pyOrStr tool_name "unknown"
        parameters := parameters
        result := result
        error := error
        executed_at := now
        duration_ms := duration_ms }
    Except.ok ({ st with tools := st.tools ++ [te] }, te)

/-- `SessionTracker.capture_user_prompt`: raises `SessionNotFoundException`
for an unknown id, otherwise stores the prompt.  `embedding` stands for the
value returned by the external embedding service for `prompt_text` (`none`
when the service is unavailable); the row is stored either way. -/
def capture_user_prompt (st : TrackerState) (now : Int) (session_id : String)
    (prompt_text : String) (metadata : Option (List (String × Json)))
    (embedding : Option (List Int)) :
    Except TrackerErr (TrackerState × UserPromptRec) :=
  match findSession st.sessions session_id with
  | none => Except.error (TrackerErr.sessionNotFound session_id)
  | some s =>
    let up : UserPromptRec :=
      { session_key := s.session_id
        prompt_text := prompt_text
        prompt_metadata := metadata.getD []
        embedding := embedding
        created_at := now }
    Except.ok ({ st with prompts := st.prompts ++ [up] }, up)

/-- `SessionTracker.capture_assistant_message`: raises
`SessionNotFoundException` for an unknown id, otherwise stores the message
with its conversation-turn ordinal. -/
def capture_assistant_message (st : TrackerState) (now : Int) (session_id : String)
    (message_text : String) (conversation_turn : Int)
    (metadata : Option (List (String × Json))) (embedding : Option (List Int)) :
    Except TrackerErr (TrackerState × AssistantMessageRec) :=
  match findSession st.sessions session_id with
  | none => Except.error (TrackerErr.sessionNotFound session_id)
  | some s =>
    let am : AssistantMessageRec :=
      { session_key := s.session_id
        message_text := message_text
        conversation_turn := conversation_turn
        message_metadata := metadata.getD []
        embedding := embedding
        created_at := now }
    Except.ok ({ st with messages := st.messages ++ [am] }, am)

/-- `SessionTracker.get_session`: a read-only lookup returning `none` for an
unknown id (it has no raising path). -/
def get_session (st : TrackerState) (session_id : String) : Option SessionRec :=
  findSession st.sessions session_id

/-- `SessionTracker._check_timeouts`: the SQL
`UPDATE ... WHERE is_active AND started_at < cutoff AND ended_at IS NULL
SET is_active = false, ended_at = now` with `cutoff = now - timeout`. -/
def check_timeouts (sessions : List SessionRec) (now : Int)
    (timeout_minutes : Int := SESSION_TIMEOUT_MINUTES) : List SessionRec :=
  let cutoff := now - timeout_minutes
  sessions.map fun r =>
    if r.is_active = true ∧ r.started_at < cutoff ∧ r.ended_at = none then
      { r with is_active := false, ended_at := some now }
    else r

/-- Insertion step for `ORDER BY started_at DESC`. -/
def insertByStartDesc (r : SessionRec) : List SessionRec → List SessionRec
  | [] => [r]
  | x :: xs =>
    if x.started_at ≤ r.started_at then r :: x :: xs else x :: insertByStartDesc r xs

/-- `ORDER BY started_at DESC` on the selected rows. -/
def sortByStartDesc (l : List SessionRec) : List SessionRec :=
  l.foldr insertByStartDesc []

/-- `SessionTracker.get_active_sessions`: run the lazy timeout sweep first,
then select the still-active rows, newest first.  Returns the swept state
together with the query result. -/
def get_active_sessions (st : TrackerState) (now : Int) :
    TrackerState × List SessionRec :=
  let st' := { st with sessions := check_timeouts st.sessions now }
  (st', sortByStartDesc (st'.sessions.filter (fun r => r.is_active)))

/-! ## File monitor (`services/file_monitor.py`)

Paths are modelled as their component lists (an absolute path `/a/b/c` is
`["", "a", "b", "c"]`); `joinPath` recovers the path string that Python's
`str(path)` / `event.src_path` yields.  `json.loads` is the Python standard
library, modelled by a `parse` parameter returning `none` on a
`JSONDecodeError`. -/

/-- Python `str.strip()` (trim leading and trailing whitespace). -/
def pyStrip (s : String) : String :=
  String.mk (((s.data.dropWhile Char.isWhitespace).reverse.dropWhile
    Char.isWhitespace).reverse)

/-- `pat` is an initial segment of the second list. -/
def isPrefList : List Char → List Char → Bool
  | [], _ => true
  | _ :: _, [] => false
  | a :: as, b :: bs => a == b && isPrefList as bs

/-- `pat` occurs contiguously somewhere in the second list. -/
def containsSubList (pat : List Char) : List Char → Bool
  | [] => isPrefList pat []
  | s@(_ :: tl) => isPrefList pat s || containsSubList pat tl

/-- Python `pat in s` on strings (substring test). -/
def strContainsSub (s pat : String) : Bool := containsSubList pat.data s.data

/-- Python `s.endswith(suffixStr)`. -/
def strEndsWith (s suffixStr : String) : Bool :=
  isPrefList suffixStr.data.reverse s.data.reverse

/-- `str(path)` over the component representation. -/
def joinPath (components : List String) : String := String.intercalate "/" components

/-- `path.name`: the final component. -/
def pathFileName (p : List String) : String := p.getLast?.getD ""

/-- `path.parent.name`: the next-to-last component. -/
def pathParentName (p : List String) : String := p.dropLast.getLast?.getD ""

/-- The raw events `ClaudeCodeEventHandler` forwards through its callback. -/
inductive RawEvent where
  | toolExecution (session_id : String) (tool_name : Json) (parameters : Json)
      (timestamp : Option Json)
  | userPrompt (session_id : String) (content : Json) (timestamp : Option Json)
  | settingsUpdate (level : String) (settings : Json) (path : String)

/-- `ClaudeCodeEventHandler._handle_transcript_update`: take the *last* entry
of `f.readlines()`, strip it, bail out silently if the file is empty or that
stripped line is empty, parse it as JSON (malformed JSON is dropped), then
classify by the `type` field: `tool_use` and `user_message` records become
events, everything else (including non-object JSON, where the subscripting
raises and is caught) is dropped. -/
def handle_transcript_update (parse : String → Option Json) (session_id : String)
    (lines : List String) : Option RawEvent :=
  match lines.getLast? with
  | none => none
  | some raw =>
    let last_line := pyStrip raw
    if last_line = "" then none
    else
      match parse last_line with
      | some (Json.obj fields) =>
        match getKey fields "type" with
        | some (Json.str t) =>
          if t = "tool_use" then
            some (RawEvent.toolExecution session_id
              ((getKey fields "name").getD (Json.str ""))
              ((getKey fields "input").getD (Json.obj []))
              (getKey fields "timestamp"))
          else if t = "user_message" then
            some (RawEvent.userPrompt session_id
              ((getKey fields "content").getD (Json.str ""))
              (getKey fields "timestamp"))
          else none
        | _ => none
      | _ => none

/-- `ClaudeCodeEventHandler._handle_settings_change`: read and parse the file
(`content`; `none` models an unreadable file or invalid JSON, which is logged
and dropped), infer the level from the path string — `'project'` if the
parent directory is named `.claude`, `'local'` if `.claude` merely occurs in
the path, `'user'` otherwise — and forward the full parsed content. -/
def handle_settings_change (path : List String) (content : Option Json) :
    Option RawEvent :=
  match content with
  | none => none
  | some settings =>
    let level :=
      if strContainsSub (joinPath path) ".claude" = true then
        (if pathParentName path = ".claude" then "project" else "local")
      else "user"
    some (RawEvent.settingsUpdate level settings (joinPath path))

/-- `ClaudeCodeEventHandler.on_modified`: non-directory events whose path ends
in `.jsonl` go to the transcript handler (the session id is the transcript's
parent directory name); otherwise paths ending in `settings.json` go to the
settings handler; anything else is ignored.  `lines` and `settingsContent`
stand for the file's content at the time the handler reads it. -/
def on_modified (is_directory : Bool) (path : List String)
    (parse : String → Option Json) (lines : List String)
    (settingsContent : Option Json) : Option RawEvent :=
  if is_directory then none
  else if strEndsWith (joinPath path) ".jsonl" then
    handle_transcript_update parse (pathParentName path) lines
  else if strEndsWith (joinPath path) "settings.json" then
    handle_settings_change path settingsContent
  else none

/-! ## Event broadcast (`main.py` `broadcast_event`) -/

/-- `broadcast_event` over the `active_connections` list.  Connections are
identified by numbers; `sendOk c` says whether `c.send_json(message)`
succeeds (a raising send is logged and the connection queued on
`dead_connections`).  The loop first attempts delivery to every connection in
list order, then — only after that iteration completes — removes each dead
connection that is still present.  Returns (connections that received the
event, `active_connections` afterwards). -/
def broadcast_event (conns : List Nat) (sendOk : Nat → Bool) :
    List Nat × List Nat :=
  let step := conns.foldl
    (fun (acc : List Nat × List Nat) c =>
      if sendOk c then (acc.1 ++ [c], acc.2) else (acc.1, acc.2 ++ [c]))
    ([], [])
  let remaining := step.2.foldl
    (fun acc c => if c ∈ acc then acc.erase c else acc) conns
  (step.1, remaining)

/-- The data-model invariant of §3 of the design: a session flagged active
has a null end timestamp (the converse is not required). -/
def ActiveInv (sessions : List SessionRec) : Prop :=
  ∀ r ∈ sessions, r.is_active = true → r.ended_at = none

/-- The transcript line of the C8 scenario (`\x7b`/`\x7d` are the literal
braces of the JSON text). -/
def toolUseLine : String :=
  "\x7b\"type\":\"tool_use\",\"name\":\"Bash\",\"input\":\x7b\"command\":\"ls\"\x7d\x7d"

/-- What `json.loads` returns on `toolUseLine`. -/
def toolUseJson : Json :=
  Json.obj [("type", Json.str "tool_use"), ("name", Json.str "Bash"),
    ("input", Json.obj [("command", Json.str "ls")])]

/-! ## Deep-merge lemmas -/

theorem getKey_mergeKey (base : List (String × Json)) (k k2 : String) (v : Json) :
    getKey (mergeKey base k v) k2 =
      if k2 = k then
        (match getKey base k with
         | some bv => some (deepMerge bv v)
         | none => some v)
      else getKey base k2 := by
  induction base with
  | nil =>
    by_cases h : k2 = k
    · simp [mergeKey, getKey, h]
    · simp [mergeKey, getKey, h, Ne.symm h]
  | cons hd tl ih =>
    obtain ⟨k', v'⟩ := hd
    by_cases h1 : k' = k
    · subst h1
      by_cases h2 : k2 = k'
      · subst h2; simp [mergeKey, getKey]
      · simp [mergeKey, getKey, h2, Ne.symm h2]
    · by_cases h2 : k' = k2
      · subst h2
        simp [mergeKey, getKey, h1, Ne.symm h1]
      · simp [mergeKey, getKey, h1, h2, Ne.symm h2, ih]

theorem getKey_mergeList (overlay base : List (String × Json)) (k : String)
    (hnd : (overlay.map Prod.fst).Nodup) :
    getKey (mergeList base overlay) k =
      match getKey overlay k with
      | some ov =>
        (match getKey base k with
         | some bv => some (deepMerge bv ov)
         | none => some ov)
      | none => getKey base k := by
  induction overlay generalizing base with
  | nil => simp [mergeList, getKey]
  | cons hd rest ih =>
    obtain ⟨k0, v0⟩ := hd
    simp only [List.map_cons, List.nodup_cons] at hnd
    rw [show mergeList base ((k0, v0) :: rest) = mergeList (mergeKey base k0 v0) rest from by
      simp [mergeList]]
    rw [ih _ hnd.2]
    by_cases h : k = k0
    · subst h
      have hrest : getKey rest k = none := by
        clear ih
        induction rest with
        | nil => simp [getKey]
        | cons hd2 tl2 ih2 =>
          obtain ⟨k2, v2⟩ := hd2
          simp only [List.map_cons, List.mem_cons] at hnd
          have : ¬ (k2 = k) := fun he => hnd.1 (by simp [he])
          simp [getKey, this]
          exact ih2 ⟨fun hm => hnd.1 (Or.inr hm), (List.nodup_cons.mp hnd.2).2⟩
      simp [hrest, getKey, getKey_mergeKey]
    · simp [getKey, h, Ne.symm h, getKey_mergeKey]

theorem deepMerge_obj_obj (bf vf : List (String × Json)) :
    deepMerge (Json.obj bf) (Json.obj vf) = Json.obj (mergeList bf vf) := by
  simp [deepMerge]

theorem deepMerge_replace (bv ov : Json)
    (h : (∀ bf, bv ≠ Json.obj bf) ∨ (∀ vf, ov ≠ Json.obj vf)) :
    deepMerge bv ov = ov := by
  rcases h with h | h
  · cases bv with
    | obj bf => exact absurd rfl (h bf)
    | null => cases ov <;> simp [deepMerge]
    | bool b => cases ov <;> simp [deepMerge]
    | num n => cases ov <;> simp [deepMerge]
    | str s => cases ov <;> simp [deepMerge]
    | arr xs => cases ov <;> simp [deepMerge]
  · cases ov with
    | obj vf => exact absurd rfl (h vf)
    | null => cases bv <;> simp [deepMerge]
    | bool b => cases bv <;> simp [deepMerge]
    | num n => cases bv <;> simp [deepMerge]
    | str s => cases bv <;> simp [deepMerge]
    | arr xs => cases bv <;> simp [deepMerge]

theorem wfFields_mem {fs : List (String × Json)} (h : wfFields fs)
    {p : String × Json} (hp : p ∈ fs) : wfJson p.2 := by
  induction fs with
  | nil => cases hp
  | cons hd tl ih =>
    obtain ⟨k, v⟩ := hd
    rw [wfFields] at h
    rcases List.mem_cons.mp hp with h1 | h1
    · subst h1; exact h.1
    · exact ih h.2 h1

theorem mergeKey_append_self (pre rest : List (String × Json)) (k : String) (v : Json)
    (hk : ∀ p ∈ pre, p.1 ≠ k) (hv : deepMerge v v = v) :
    mergeKey (pre ++ (k, v) :: rest) k v = pre ++ (k, v) :: rest := by
  induction pre with
  | nil => simp [mergeKey, hv]
  | cons hd tl ih =>
    obtain ⟨k', v'⟩ := hd
    have : k' ≠ k := hk (k', v') (by simp)
    simp only [List.cons_append, mergeKey, if_neg this]
    rw [ih (fun p hp => hk p (List.mem_cons_of_mem _ hp))]

theorem mergeList_self_aux : ∀ (suf pre : List (String × Json)),
    (((pre ++ suf).map Prod.fst)).Nodup →
    (∀ p ∈ suf, deepMerge p.2 p.2 = p.2) →
    mergeList (pre ++ suf) suf = pre ++ suf := by
  intro suf
  induction suf with
  | nil => intro pre _ _; simp [mergeList]
  | cons hd rest ih =>
    intro pre hnd hv
    obtain ⟨k, v⟩ := hd
    rw [show mergeList (pre ++ (k, v) :: rest) ((k, v) :: rest)
        = mergeList (mergeKey (pre ++ (k, v) :: rest) k v) rest from by simp [mergeList]]
    have hkpre : ∀ p ∈ pre, p.1 ≠ k := by
      have hnd' : (pre.map Prod.fst ++ (k :: rest.map Prod.fst)).Nodup := by simpa using hnd
      have hdisj := (List.nodup_append.mp hnd').2.2
      intro p hp he
      exact hdisj (List.mem_map_of_mem Prod.fst hp) (by simp [he])
    rw [mergeKey_append_self pre rest k v hkpre (hv (k, v) (by simp))]
    have : pre ++ (k, v) :: rest = (pre ++ [(k, v)]) ++ rest := by simp
    rw [this]
    exact ih (pre ++ [(k, v)]) (by simpa using hnd)
      (fun p hp => hv p (List.mem_cons_of_mem _ hp))

theorem deepMerge_self_aux : ∀ (n : Nat) (j : Json), sizeOf j ≤ n → wfJson j →
    deepMerge j j = j := by
  intro n
  induction n with
  | zero =>
    intro j hs
    exfalso
    have h1 : 1 ≤ sizeOf j := by cases j <;> simp_arith
    omega
  | succ n ih =>
    intro j hs hwf
    match j with
    | Json.null => simp [deepMerge]
    | Json.bool b => simp [deepMerge]
    | Json.num m => simp [deepMerge]
    | Json.str s => simp [deepMerge]
    | Json.arr xs => simp [deepMerge]
    | Json.obj fs =>
      rw [wfJson] at hwf
      rw [show deepMerge (Json.obj fs) (Json.obj fs) = Json.obj (mergeList fs fs) from by
        simp [deepMerge]]
      congr 1
      have hpt : ∀ p ∈ fs, deepMerge p.2 p.2 = p.2 := by
        intro p hp
        have hlt : sizeOf p < sizeOf fs := List.sizeOf_lt_of_mem hp
        have hp2 : sizeOf p.2 < sizeOf p := by
          obtain ⟨a, b⟩ := p
          simp_arith
        have hsz : sizeOf (Json.obj fs) = 1 + sizeOf fs := by simp
        exact ih p.2 (by omega) (wfFields_mem hwf.2 hp)
      exact mergeList_self_aux fs [] (by simpa using hwf.1) hpt

theorem deepMerge_self (j : Json) (h : wfJson j) : deepMerge j j = j :=
  deepMerge_self_aux (sizeOf j) j le_rfl h

theorem mergeList_self (fs : List (String × Json))
    (hnd : (fs.map Prod.fst).Nodup) (hwf : wfFields fs) :
    mergeList fs fs = fs :=
  mergeList_self_aux fs [] (by simpa using hnd)
    (fun p hp => deepMerge_self p.2 (wfFields_mem hwf hp))

/-! ## Claim C3 -/

/-- C3: the deep-merge operation recurses exactly when a key maps to nested
maps in both the accumulator and the incoming layer and otherwise lets the
incoming value replace the accumulated one; merging a layer into itself
produces no change; merging `{a:{b:1}}` then `{a:{c:2}}` yields
`{a:{b:1,c:2}}`; merging `{a:1}` then `{a:{b:2}}` yields `{a:{b:2}}`. -/
theorem deep_merge_spec :
    (∀ (base overlay : List (String × Json)) (k : String),
      (overlay.map Prod.fst).Nodup →
      getKey (mergeList base overlay) k =
        match getKey overlay k with
        | some ov =>
          (match getKey base k with
           | some bv => some (deepMerge bv ov)
           | none => some ov)
        | none => getKey base k) ∧
    (∀ bf vf, deepMerge (Json.obj bf) (Json.obj vf) = Json.obj (mergeList bf vf)) ∧
    (∀ bv ov, ((∀ bf, bv ≠ Json.obj bf) ∨ (∀ vf, ov ≠ Json.obj vf)) →
      deepMerge bv ov = ov) ∧
    (∀ l, (l.map Prod.fst).Nodup → wfFields l → mergeList l l = l) ∧
    mergeList [("a", Json.obj [("b", Json.num 1)])] [("a", Json.obj [("c", Json.num 2)])]
      = [("a", Json.obj [("b", Json.num 1), ("c", Json.num 2)])] ∧
    mergeList [("a", Json.num 1)] [("a", Json.obj [("b", Json.num 2)])]
      = [("a", Json.obj [("b", Json.num 2)])] := by
  refine ⟨fun base overlay k h => getKey_mergeList overlay base k h,
    deepMerge_obj_obj, deepMerge_replace, mergeList_self, ?_, ?_⟩
  · simp [mergeList, mergeKey, deepMerge]
  · simp [mergeList, mergeKey, deepMerge]

/-- Witness for C3 at concrete inputs. -/
theorem deep_merge_spec_witness :
    mergeList [("a", Json.num 1)] [("a", Json.num 1)] = [("a", Json.num 1)] ∧
    getKey (mergeList [("x", Json.num 1)] [("x", Json.num 2)]) "x"
      = some (Json.num 2) := by
  constructor
  · exact deep_merge_spec.2.2.2.1 [("a", Json.num 1)] (by simp)
      (by simp [wfFields, wfJson])
  · rw [deep_merge_spec.1 [("x", Json.num 1)] [("x", Json.num 2)] "x" (by simp)]
    simp [getKey, deepMerge]

/-! ## Claim C4 -/

/-- C4: the effective configuration respects the fixed precedence
managed < user < project < local end-to-end (`x` mapped to 1/2/3/4 across the
four layers yields 4; with only managed and user non-empty it yields 2), and
a runtime layer merged by `merge_runtime_overrides` wins over every
file-derived layer (any key the runtime layer binds to a non-map value comes
out with exactly that value, whatever the file layers said). -/
theorem settings_precedence_end_to_end :
    compute_effective_settings
        ⟨[("x", Json.num 1)], [("x", Json.num 2)], [("x", Json.num 3)],
          [("x", Json.num 4)]⟩
      = [("x", Json.num 4)] ∧
    compute_effective_settings ⟨[("x", Json.num 1)], [("x", Json.num 2)], [], []⟩
      = [("x", Json.num 2)] ∧
    (∀ (file_based runtime : List (String × Json)) (k : String) (v : Json),
      (runtime.map Prod.fst).Nodup →
      getKey runtime k = some v → (∀ vf, v ≠ Json.obj vf) →
      getKey (merge_runtime_overrides file_based runtime) k = some v) := by
  refine ⟨?_, ?_, ?_⟩
  · simp [compute_effective_settings, SETTINGS_PRECEDENCE, layerOf, mergeList,
      mergeKey, deepMerge]
  · simp [compute_effective_settings, SETTINGS_PRECEDENCE, layerOf, mergeList,
      mergeKey, deepMerge]
  · intro file_based runtime k v hnd hk hv
    rw [merge_runtime_overrides, getKey_mergeList runtime file_based k hnd, hk]
    match hf : getKey file_based k with
    | none => simp
    | some bv => simp [deepMerge_replace bv v (Or.inr hv)]

/-- Witness for C4: a concrete runtime override beating a file value. -/
theorem settings_precedence_end_to_end_witness :
    getKey (merge_runtime_overrides [("m", Json.num 0)] [("m", Json.num 9)]) "m"
      = some (Json.num 9) :=
  settings_precedence_end_to_end.2.2 [("m", Json.num 0)] [("m", Json.num 9)]
    "m" (Json.num 9) (by simp) (by simp [getKey]) (by intro vf h; cases h)

/-! ## Session-registry lemmas -/

theorem length_updateFirst (l : List SessionRec) (sid : String) (r' : SessionRec) :
    (updateFirst l sid r').length = l.length := by
  induction l with
  | nil => rfl
  | cons x tl ih =>
    rw [updateFirst]
    by_cases h : x.session_id == sid <;> simp [h, ih]

theorem mem_updateFirst {l : List SessionRec} {sid : String} {r' q : SessionRec}
    (hq : q ∈ updateFirst l sid r') : q = r' ∨ q ∈ l := by
  induction l with
  | nil => cases hq
  | cons x tl ih =>
    rw [updateFirst] at hq
    by_cases h : x.session_id == sid
    · rw [if_pos h] at hq
      rcases List.mem_cons.mp hq with h1 | h1
      · exact Or.inl h1
      · exact Or.inr (List.mem_cons_of_mem _ h1)
    · rw [if_neg h] at hq
      rcases List.mem_cons.mp hq with h1 | h1
      · exact Or.inr (by simp [h1])
      · rcases ih h1 with h2 | h2
        · exact Or.inl h2
        · exact Or.inr (List.mem_cons_of_mem _ h2)

theorem filter_updateFirst (l : List SessionRec) (sid : String) (r r' : SessionRec)
    (hnd : (l.map SessionRec.session_id).Nodup)
    (hfind : findSession l sid = some r) (hid : r'.session_id = sid) :
    (updateFirst l sid r').filter (fun q => q.session_id == sid) = [r'] := by
  induction l with
  | nil => simp [findSession] at hfind
  | cons x tl ih =>
    simp only [List.map_cons, List.nodup_cons] at hnd
    rw [findSession, List.find?] at hfind
    by_cases h : x.session_id == sid
    · rw [updateFirst, if_pos h]
      have hxs : x.session_id = sid := by simpa using h
      have htl : ∀ q ∈ tl, ¬ (q.session_id == sid) := by
        intro q hq hqs
        have hq' : q.session_id ∈ List.map SessionRec.session_id tl :=
          List.mem_map_of_mem _ hq
        have hx2 : x.session_id = q.session_id := by
          rw [hxs]
          exact (by simpa using hqs : q.session_id = sid).symm
        exact hnd.1 (hx2 ▸ hq')
      simp only [List.filter_cons]
      rw [if_pos (by simpa using hid)]
      congr 1
      exact List.filter_eq_nil_iff.mpr htl
    · have hb : (x.session_id == sid) = false := by simpa using h
      rw [hb] at hfind
      simp only at hfind
      rw [updateFirst, if_neg h]
      simp only [List.filter_cons]
      rw [if_neg (by simpa using h)]
      exact ih hnd.2 (by simpa [findSession] using hfind)

theorem findSession_some_id {l : List SessionRec} {sid : String} {r : SessionRec}
    (h : findSession l sid = some r) : r.session_id = sid := by
  have := List.find?_some h
  simpa using this

/-! ## Claim C1 -/

/-- C1 (code bug): `start_session` never returns a created or reactivated
session at all.  On the creation path the declarative `SessionModel`
constructor receives the unmapped `claudia_metadata`/`source` keyword
arguments and raises `TypeError`, leaving the unit of work untouched; on the
reactivation path, reading the absent `claudia_metadata` instance attribute
raises `AttributeError` after the reactivation mutations (second call's
project fields, new start time, active flag, cleared end time) have been
applied to the unit of work.  Evaluated at a concrete failing input for each
path; the pre-existing row is as loaded from the database, with the dynamic
attributes absent. -/
theorem start_session_always_raises :
    (start_session ⟨[], [], [], []⟩ 0 "s" "/p" "p" none none none).2
      = Except.error (PyErr.typeError "claudia_metadata") ∧
    (start_session ⟨[], [], [], []⟩ 0 "s" "/p" "p" none none none).1
      = ⟨[], [], [], []⟩ ∧
    (start_session
        ⟨[⟨"s", "/p", "p", 0, some 3, false, [], none, none, none⟩], [], [], []⟩
        100 "s" "/p2" "p2" none none none).2
      = Except.error (PyErr.attributeError "claudia_metadata") ∧
    (start_session
        ⟨[⟨"s", "/p", "p", 0, some 3, false, [], none, none, none⟩], [], [], []⟩
        100 "s" "/p2" "p2" none none none).1.sessions
      = [⟨"s", "/p2", "p2", 100, none, true, [], none, some none, none⟩] :=
  ⟨rfl, rfl, rfl, rfl⟩


/-! ## Claim C2 -/

/-- C2: every mutating operation that requires an existing session —
`end_session`, `record_tool_execution`, `capture_user_prompt`,
`capture_assistant_message` — fails with the distinct
`SessionNotFoundException` condition when no record carries the given id.
The error is raised before anything is written, which the embedding renders
by the error result carrying no successor state: no record is created and no
existing state is changed. -/
theorem unknown_session_raises_not_found (st : TrackerState) (now : Int)
    (sid : String) (reason pp pn : Option String)
    (sm : Option (List (String × Json))) (tn : Option String)
    (params res : Option Json) (err : Option String) (dur : Option Int)
    (ptext mtext : String) (turn : Int)
    (meta1 meta2 : Option (List (String × Json))) (emb1 emb2 : Option (List Int))
    (h : ∀ r ∈ st.sessions, r.session_id ≠ sid) :
    end_session st now sid reason pp pn sm
        = Except.error (TrackerErr.sessionNotFound sid) ∧
    record_tool_execution st now sid tn params res err dur
        = Except.error (TrackerErr.sessionNotFound sid) ∧
    capture_user_prompt st now sid ptext meta1 emb1
        = Except.error (TrackerErr.sessionNotFound sid) ∧
    capture_assistant_message st now sid mtext turn meta2 emb2
        = Except.error (TrackerErr.sessionNotFound sid) := by
  have hfind : findSession st.sessions sid = none := by
    rw [findSession]
    apply List.find?_eq_none.mpr
    intro r hr
    simpa using h r hr
  exact ⟨by simp [end_session, hfind], by simp [record_tool_execution, hfind],
    by simp [capture_user_prompt, hfind],
    by simp [capture_assistant_message, hfind]⟩

/-- Witness for C2 on the empty registry. -/
theorem unknown_session_raises_not_found_witness :
    end_session ⟨[], [], [], []⟩ 0 "ghost" none none none none
        = Except.error (TrackerErr.sessionNotFound "ghost") ∧
    record_tool_execution ⟨[], [], [], []⟩ 0 "ghost" none none none none none
        = Except.error (TrackerErr.sessionNotFound "ghost") ∧
    capture_user_prompt ⟨[], [], [], []⟩ 0 "ghost" "hi" none none
        = Except.error (TrackerErr.sessionNotFound "ghost") ∧
    capture_assistant_message ⟨[], [], [], []⟩ 0 "ghost" "hi" 0 none none
        = Except.error (TrackerErr.sessionNotFound "ghost") :=
  unknown_session_raises_not_found ⟨[], [], [], []⟩ 0 "ghost" none none none
    none none none none none none "hi" "hi" 0 none none none none
    (by intro r hr; cases hr)

/-! ## Claim C10 -/

/-- C10: the read-only lookup `get_session` returns an absent result for an
unknown id; its return type is an option, so unlike the mutating operations
it has no raising path at all. -/
theorem get_session_unknown_returns_none (st : TrackerState) (sid : String)
    (h : ∀ r ∈ st.sessions, r.session_id ≠ sid) : get_session st sid = none := by
  rw [get_session, findSession]
  apply List.find?_eq_none.mpr
  intro r hr
  simpa using h r hr

/-- Witness for C10 on the empty registry. -/
theorem get_session_unknown_returns_none_witness :
    get_session ⟨[], [], [], []⟩ "ghost" = none :=
  get_session_unknown_returns_none ⟨[], [], [], []⟩ "ghost"
    (by intro r hr; cases hr)

/-! ## Claim C5 -/

/-- C5: `get_active_sessions` runs the timeout sweep before returning: in the
state it leaves behind, every session that was flagged active, had no end
timestamp and started more than `SESSION_TIMEOUT_MINUTES` before `now` has
its active flag cleared and a synthetic end timestamp `now` set, while every
other session (in particular one started within the window) is unchanged;
no session is added or removed. -/
theorem get_active_sessions_sweeps (st : TrackerState) (now : Int) (i : Nat) :
    (get_active_sessions st now).1.sessions.length = st.sessions.length ∧
    ∀ r, st.sessions[i]? = some r →
      ((r.is_active = true ∧ r.started_at < now - SESSION_TIMEOUT_MINUTES ∧
          r.ended_at = none →
        (get_active_sessions st now).1.sessions[i]?
          = some { r with is_active := false, ended_at := some now }) ∧
       (¬ (r.is_active = true ∧ r.started_at < now - SESSION_TIMEOUT_MINUTES ∧
          r.ended_at = none) →
        (get_active_sessions st now).1.sessions[i]? = some r)) := by
  constructor
  · simp [get_active_sessions, check_timeouts]
  · intro r hr
    have hmap : (get_active_sessions st now).1.sessions[i]?
        = some (if r.is_active = true ∧ r.started_at < now - SESSION_TIMEOUT_MINUTES ∧
            r.ended_at = none then
          { r with is_active := false, ended_at := some now } else r) := by
      simp [get_active_sessions, check_timeouts, List.getElem?_map, hr]
    constructor
    · intro hc
      rw [hmap, if_pos hc]
    · intro hc
      rw [hmap, if_neg hc]

/-- Witness for C5: a session started at time 0 is force-ended by a
"get active sessions" query at time 61, one started at time 30 is not. -/
theorem get_active_sessions_sweeps_witness :
    ((get_active_sessions
        ⟨[⟨"old", "p", "n", 0, none, true, [], none, none, none⟩,
          ⟨"new", "p", "n", 30, none, true, [], none, none, none⟩],
          [], [], []⟩ 61).1.sessions[0]?
      = some ⟨"old", "p", "n", 0, some 61, false, [], none, none, none⟩) ∧
    ((get_active_sessions
        ⟨[⟨"old", "p", "n", 0, none, true, [], none, none, none⟩,
          ⟨"new", "p", "n", 30, none, true, [], none, none, none⟩],
          [], [], []⟩ 61).1.sessions[1]?
      = some ⟨"new", "p", "n", 30, none, true, [], none, none, none⟩) := by
  constructor
  · exact ((get_active_sessions_sweeps
      ⟨[⟨"old", "p", "n", 0, none, true, [], none, none, none⟩,
        ⟨"new", "p", "n", 30, none, true, [], none, none, none⟩], [], [], []⟩
      61 0).2 _ rfl).1 ⟨rfl, by norm_num [SESSION_TIMEOUT_MINUTES], rfl⟩
  · exact ((get_active_sessions_sweeps
      ⟨[⟨"old", "p", "n", 0, none, true, [], none, none, none⟩,
        ⟨"new", "p", "n", 30, none, true, [], none, none, none⟩], [], [], []⟩
      61 1).2 _ rfl).2 (by
        intro h
        have := h.2.1
        norm_num [SESSION_TIMEOUT_MINUTES] at this)

/-! ## Claim C7 -/

/-- C7: starting from any state in which every active session has a null end
timestamp, that invariant still holds after each registry operation:
`start_session`, a successful `end_session`, `record_tool_execution`,
`capture_user_prompt`, `capture_assistant_message`, and the timeout sweep
performed by `get_active_sessions`. -/
theorem active_null_end_invariant (st : TrackerState) (now : Int)
    (sid pp pn ptext mtext : String) (tp : Option String)
    (rc sm meta1 meta2 : Option (List (String × Json)))
    (src reason tn err : Option String) (pp' pn' : Option String)
    (params res : Option Json) (dur : Option Int) (turn : Int)
    (emb1 emb2 : Option (List Int))
    (hinv : ActiveInv st.sessions) :
    ActiveInv (start_session st now sid pp pn tp rc src).1.sessions ∧
    (∀ st' x, end_session st now sid reason pp' pn' sm = Except.ok (st', x) →
      ActiveInv st'.sessions) ∧
    (∀ st' x, record_tool_execution st now sid tn params res err dur
        = Except.ok (st', x) → ActiveInv st'.sessions) ∧
    (∀ st' x, capture_user_prompt st now sid ptext meta1 emb1
        = Except.ok (st', x) → ActiveInv st'.sessions) ∧
    (∀ st' x, capture_assistant_message st now sid mtext turn meta2 emb2
        = Except.ok (st', x) → ActiveInv st'.sessions) ∧
    ActiveInv (get_active_sessions st now).1.sessions := by
  refine ⟨?_, ?_, ?_, ?_, ?_, ?_⟩
  · cases hM : findSession st.sessions sid with
    | some r =>
      cases hcm : r.claudia_metadata with
      | none =>
        simp only [start_session, hM, hcm]
        intro q hq _
        rcases mem_updateFirst hq with h1 | h1
        · rw [h1]
        · exact hinv q h1 (by assumption)
      | some cm0 =>
        simp only [start_session, hM, hcm]
        intro q hq _
        rcases mem_updateFirst hq with h1 | h1
        · rw [h1]
        · exact hinv q h1 (by assumption)
    | none =>
      simp only [start_session, hM]
      exact hinv
  · intro st' x hok
    cases hM : findSession st.sessions sid with
    | none => simp [end_session, hM] at hok
    | some r =>
      simp only [end_session, hM, Except.ok.injEq, Prod.mk.injEq] at hok
      intro q hq ha
      rw [← hok.1] at hq
      rcases mem_updateFirst hq with h1 | h1
      · rw [h1] at ha
        simp at ha
      · exact hinv q h1 ha
  · intro st' x hok
    cases hM : findSession st.sessions sid with
    | none => simp [record_tool_execution, hM] at hok
    | some r =>
      simp only [record_tool_execution, hM, Except.ok.injEq, Prod.mk.injEq] at hok
      intro q hq ha
      rw [← hok.1] at hq
      exact hinv q hq ha
  · intro st' x hok
    cases hM : findSession st.sessions sid with
    | none => simp [capture_user_prompt, hM] at hok
    | some r =>
      simp only [capture_user_prompt, hM, Except.ok.injEq, Prod.mk.injEq] at hok
      intro q hq ha
      rw [← hok.1] at hq
      exact hinv q hq ha
  · intro st' x hok
    cases hM : findSession st.sessions sid with
    | none => simp [capture_assistant_message, hM] at hok
    | some r =>
      simp only [capture_assistant_message, hM, Except.ok.injEq,
        Prod.mk.injEq] at hok
      intro q hq ha
      rw [← hok.1] at hq
      exact hinv q hq ha
  · intro q hq ha
    simp only [get_active_sessions, check_timeouts, List.mem_map] at hq
    obtain ⟨r, hr, hq'⟩ := hq
    by_cases hc : r.is_active = true ∧ r.started_at < now - SESSION_TIMEOUT_MINUTES ∧
        r.ended_at = none
    · rw [if_pos hc] at hq'
      rw [← hq'] at ha
      simp at ha
    · rw [if_neg hc] at hq'
      rw [← hq']
      exact hinv r hr (by rw [hq']; exact ha)

/-- Witness for C7: the invariant holds after starting a session on the empty
registry. -/
theorem active_null_end_invariant_witness :
    ActiveInv (start_session ⟨[], [], [], []⟩ 0 "s" "p" "n" none none none).1.sessions :=
  (active_null_end_invariant ⟨[], [], [], []⟩ 0 "s" "p" "n" "t" "t" none none
    none none none none none none none none none none none none 0 none none
    (by intro r hr; cases hr)).1

/-! ## Broadcast lemmas -/

theorem broadcast_foldl_spec (ok : Nat → Bool) :
    ∀ (l d0 dead0 : List Nat),
      l.foldl (fun (acc : List Nat × List Nat) c =>
          if ok c then (acc.1 ++ [c], acc.2) else (acc.1, acc.2 ++ [c]))
        (d0, dead0)
      = (d0 ++ l.filter ok, dead0 ++ l.filter (fun c => !ok c)) := by
  intro l
  induction l with
  | nil => intro d0 dead0; simp
  | cons c tl ih =>
    intro d0 dead0
    by_cases h : ok c
    · simp [List.foldl_cons, h, List.filter_cons, ih]
    · simp [List.foldl_cons, h, List.filter_cons, ih]

theorem eraseStep_eq :
    (fun (acc : List Nat) c => if c ∈ acc then acc.erase c else acc)
      = fun (acc : List Nat) c => acc.erase c := by
  funext acc c
  by_cases h : c ∈ acc
  · rw [if_pos h]
  · rw [if_neg h, List.erase_of_not_mem h]

theorem foldl_erase_filter : ∀ (ds l : List Nat), l.Nodup →
    ds.foldl List.erase l = l.filter (fun x => decide (x ∉ ds)) := by
  intro ds
  induction ds with
  | nil => intro l _; simp
  | cons d ds ih =>
    intro l hl
    rw [List.foldl_cons, ih (l.erase d) (hl.erase d),
      List.Nodup.erase_eq_filter hl d, List.filter_filter]
    apply List.filter_congr
    intro x _
    by_cases h1 : x = d <;> by_cases h2 : x ∈ ds <;> simp [h1, h2]

/-! ## Claim C6 -/

/-- C6: `broadcast_event` attempts delivery once per subscriber in iteration
order; a failing subscriber neither prevents delivery to the others nor fails
the broadcast (the recipients are exactly the subscribers whose send
succeeds, in order), and failed subscribers are removed only after the
iteration, so that afterwards exactly the successful subscribers remain; in
the three-subscriber scenario where the second fails, the first and third
receive the event and the second is gone from the subscriber list. -/
theorem broadcast_event_spec (conns : List Nat) (sendOk : Nat → Bool) :
    (broadcast_event conns sendOk).1 = conns.filter sendOk ∧
    (conns.Nodup → (broadcast_event conns sendOk).2 = conns.filter sendOk) ∧
    broadcast_event [1, 2, 3] (fun c => !(c == 2)) = ([1, 3], [1, 3]) := by
  refine ⟨?_, ?_, ?_⟩
  · simp only [broadcast_event, broadcast_foldl_spec, List.nil_append]
  · intro hnd
    simp only [broadcast_event, broadcast_foldl_spec, List.nil_append]
    rw [eraseStep_eq, foldl_erase_filter _ _ hnd]
    apply List.filter_congr
    intro x hx
    by_cases h : sendOk x
    · simp [List.mem_filter, h, hx]
    · simp [List.mem_filter, h, hx]
  · rfl

/-- Witness for C6: the subscriber list [1, 2, 3] with distinct entries. -/
theorem broadcast_event_spec_witness :
    (broadcast_event [1, 2, 3] (fun c => !(c == 2))).2
      = List.filter (fun c => !(c == 2)) [1, 2, 3] :=
  (broadcast_event_spec [1, 2, 3] (fun c => !(c == 2))).2.1 (by decide)

/-! ## Claim C8 -/

/-- C8 counterexample: the transcript handler does *not* extract the final
non-empty line.  For a transcript whose last `readlines` entry is blank while
the final non-empty line is exactly the C8 tool_use record (which the JSON
decoder parses successfully, third conjunct), the handler produces no event
at all, where the claim demands exactly one tool-execution event. -/
theorem transcript_not_final_nonempty_line :
    handle_transcript_update
        (fun s => if s = toolUseLine then some toolUseJson else none) "sess"
        [toolUseLine, "  "]
      = none ∧
    [toolUseLine, "  "].reverse.find? (fun l => !(pyStrip l == ""))
      = some toolUseLine ∧
    (fun s => if s = toolUseLine then some toolUseJson else none) toolUseLine
      = some toolUseJson :=
  ⟨rfl, rfl, rfl⟩

/-- C8 amended: on a modification notification the handler re-reads the file
and takes only its *final* line; if that line strips to empty, nothing is
forwarded (even when an earlier line holds a record); otherwise that line is
parsed as one JSON record and forwarded, and in particular any transcript
whose final line is `toolUseLine` produces exactly one tool-execution domain
event with tool name "Bash". -/
theorem transcript_final_line_amended (parse : String → Option Json)
    (sid : String) (lines : List String) :
    (∀ raw, lines.getLast? = some raw → pyStrip raw = "" →
      handle_transcript_update parse sid lines = none) ∧
    (∀ raw, lines.getLast? = some raw → pyStrip raw = toolUseLine →
      parse toolUseLine = some toolUseJson →
      handle_transcript_update parse sid lines
        = some (RawEvent.toolExecution sid (Json.str "Bash")
            (Json.obj [("command", Json.str "ls")]) none)) := by
  constructor
  · intro raw hlast hstrip
    simp [handle_transcript_update, hlast, hstrip]
  · intro raw hlast hstrip hparse
    simp only [handle_transcript_update, hlast, hstrip]
    rw [if_neg (by decide : ¬ (toolUseLine = "")), hparse]
    rfl

/-- Witness for C8 at a concrete one-line transcript. -/
theorem transcript_final_line_amended_witness :
    handle_transcript_update
        (fun s => if s = toolUseLine then some toolUseJson else none) "sess"
        [toolUseLine]
      = some (RawEvent.toolExecution "sess" (Json.str "Bash")
          (Json.obj [("command", Json.str "ls")]) none) :=
  (transcript_final_line_amended
      (fun s => if s = toolUseLine then some toolUseJson else none) "sess"
      [toolUseLine]).2 toolUseLine rfl rfl (by simp)

/-! ## Claim C9 -/

/-- C9 counterexample: the level inferred for the user settings file
`<home>/.claude/settings.json` is `'project'`, not `'user'`, and a
modification of `<project>/.claude/settings.local.json` yields no
settings-update event at all (its name does not end in `settings.json`). -/
theorem settings_level_counterexample :
    on_modified false ["", "home", "alice", ".claude", "settings.json"]
        (fun _ => none) [] (some (Json.obj []))
      = some (RawEvent.settingsUpdate "project" (Json.obj [])
          "/home/alice/.claude/settings.json") ∧
    "project" ≠ "user" ∧
    on_modified false ["", "work", "proj", ".claude", "settings.local.json"]
        (fun _ => none) [] (some (Json.obj []))
      = none :=
  ⟨rfl, by decide, rfl⟩

/-- C9 amended: a modification of a settings file yields a settings-update
raw event carrying the file's full parsed JSON content only when the file
name ends in `settings.json`, and the level is inferred as `'project'` when
the parent directory is named `.claude`, `'local'` when `.claude` merely
occurs in the path, and `'user'` otherwise.  Concretely: the project file
gets `'project'`; the user file `<home>/.claude/settings.json` also gets
`'project'` (not `'user'`); the managed file gets `'user'` (not
`'managed'`); and `<project>/.claude/settings.local.json` produces no event. -/
theorem settings_update_levels_amended (settings : Json) :
    on_modified false ["", "work", "proj", ".claude", "settings.json"]
        (fun _ => none) [] (some settings)
      = some (RawEvent.settingsUpdate "project" settings
          "/work/proj/.claude/settings.json") ∧
    on_modified false ["", "home", "alice", ".claude", "settings.json"]
        (fun _ => none) [] (some settings)
      = some (RawEvent.settingsUpdate "project" settings
          "/home/alice/.claude/settings.json") ∧
    on_modified false ["", "etc", "claude-code", "managed-settings.json"]
        (fun _ => none) [] (some settings)
      = some (RawEvent.settingsUpdate "user" settings
          "/etc/claude-code/managed-settings.json") ∧
    on_modified false ["", "work", "proj", ".claude", "settings.local.json"]
        (fun _ => none) [] (some settings)
      = none :=
  ⟨rfl, rfl, rfl, rfl⟩

end Claudia
